import Mathlib

/-!
Verification development for the playlist synchronization engine in
`src/api/index.py`.  The Python source is embedded shallowly: pure parsing
and rendering functions become Lean functions over `List Char`, the global
mutable pair `(combined_playlist, last_sync_time)` becomes an explicit
`CommittedState` value, and every network collaborator (playlist fetch,
OpenAI completion, HEAD probe, Wikipedia lookup chain, EPG fetch) becomes a
field of an `Oracles` record mapping the request data the code sends to the
response data the code consumes (`none` / `Resp.err` marking the raised
exception, `Resp.bad` a non-200 status).
-/

/-- One parsed playlist item, mirroring the dictionary built by `parse_m3u`
(keys `tvg-id`, `tvg-name`, `tvg-logo`, `group-title`, `name`, `url`). -/
structure Channel where
  tvgId : String
  tvgName : String
  tvgLogo : String
  groupTitle : String
  name : String
  url : String
deriving DecidableEq, Repr

/-- One EPG programme slot, mirroring the dict built by `fetch_epg`. -/
structure ScheduleSlot where
  start : String
  stop : String
  title : String
deriving DecidableEq, Repr

/-- A channel after the enrichment loop of `sync_playlists` added the
`status` and `epg` keys (and overwrote `tvg-logo`). -/
structure LiveChannel extends Channel where
  status : String
  epg : List ScheduleSlot
deriving DecidableEq, Repr

/-- Python whitespace: the exact character set of `str.isspace()`, which
is also the set `str.strip()` removes and the set the regex class `\s`
matches on `str` patterns (tab, the five line feeds, `\x1c`–`\x1f`,
space, NEL, NBSP, and the Unicode space separators). -/
def isSpc (c : Char) : Bool :=
  [0x9, 0xa, 0xb, 0xc, 0xd, 0x1c, 0x1d, 0x1e, 0x1f, 0x20, 0x85, 0xa0,
   0x1680, 0x2000, 0x2001, 0x2002, 0x2003, 0x2004, 0x2005, 0x2006, 0x2007,
   0x2008, 0x2009, 0x200a, 0x2028, 0x2029, 0x202f, 0x205f, 0x3000].contains c.toNat

/-- Python line boundaries: the exact set `str.splitlines()` splits on
(`\n`, `\v`, `\f`, `\r`, `\x1c`–`\x1e`, NEL, LINE SEPARATOR, PARAGRAPH
SEPARATOR; `\r\n` counting as one boundary). -/
def isBreak (c : Char) : Bool :=
  [0xa, 0xb, 0xc, 0xd, 0x1c, 0x1d, 0x1e, 0x85, 0x2028, 0x2029].contains c.toNat

/-- Python `str.strip()` on a list of characters. -/
def pstrip (cs : List Char) : List Char :=
  ((cs.dropWhile isSpc).reverse.dropWhile isSpc).reverse

/-- Python `str.startswith`. -/
def hasPref : List Char → List Char → Bool
  | [], _ => true
  | _ :: _, [] => false
  | p :: ps, c :: cs => p == c && hasPref ps cs

/-- Worker for `splitlines`: `acc` holds the current line reversed. -/
def slGo : List Char → List Char → List (List Char)
  | [], acc => if acc.isEmpty then [] else [acc.reverse]
  | '\r' :: '\n' :: rest, acc => acc.reverse :: slGo rest []
  | c :: rest, acc =>
    if isBreak c then acc.reverse :: slGo rest []
    else slGo rest (c :: acc)

/-- Python `str.splitlines()` on the full boundary set of `isBreak`. -/
def splitlines (cs : List Char) : List (List Char) := slGo cs []

/-- Consume the literal `lit` from the front of `cs`. -/
def dropStr : List Char → List Char → Option (List Char)
  | [], cs => some cs
  | _ :: _, [] => none
  | l :: ls, c :: cs => if c = l then dropStr ls cs else none

/-- The regex token `\s*` (maximal munch; every token that follows it in
the `#EXTINF` pattern starts with a non-space character, so maximal munch
is exact). -/
def dropSpaces (cs : List Char) : List Char := cs.dropWhile isSpc

/-- Ordered alternative used to encode regex backtracking: prefer `a`,
fall back to `b` when the whole continuation under `a` fails. -/
def oalt (a : Option α) (b : Unit → Option α) : Option α :=
  match a with
  | some x => some x
  | none => b ()

/-- The regex fragment `key="([^"]*)"` (with `key="` passed as `k`):
returns the captured value and the rest of the input. -/
def matchAttrVal (k : List Char) (cs : List Char) : Option (List Char × List Char) :=
  match dropStr k cs with
  | none => none
  | some r1 =>
    match r1.dropWhile (fun c => c != '"') with
    | '"' :: r2 => some (r1.takeWhile (fun c => c != '"'), r2)
    | _ => none

/-- The capture groups of the `#EXTINF` regex in `parse_m3u`
(`match.group(2,4,6,8)` and the required trailing `match.group(9)`). -/
structure ExtGroups where
  gId : Option (List Char)
  gName : Option (List Char)
  gLogo : Option (List Char)
  gTitle : Option (List Char)
  label : List Char
deriving DecidableEq, Repr

def keyId : List Char := "tvg-id=\"".data
def keyName : List Char := "tvg-name=\"".data
def keyLogo : List Char := "tvg-logo=\"".data
def keyTitle : List Char := "group-title=\"".data

/-- Regex tail `\s*,(.+)` ( `dropSpaces` is applied by the caller). -/
def finishG (a b c d : Option (List Char)) (cs : List Char) : Option ExtGroups :=
  match cs with
  | ',' :: rest => if rest.isEmpty then none else some ⟨a, b, c, d, rest⟩
  | _ => none

/-- Regex fragment `(group-title="([^"]*)")?\s*,(.+)`. -/
def goTitle (a b c : Option (List Char)) (cs : List Char) : Option ExtGroups :=
  oalt (match matchAttrVal keyTitle cs with
        | some (v, r) => finishG a b c (some v) (dropSpaces r)
        | none => none)
       (fun _ => finishG a b c none (dropSpaces cs))

/-- Regex fragment `(tvg-logo="([^"]*)")?\s*…`. -/
def goLogo (a b : Option (List Char)) (cs : List Char) : Option ExtGroups :=
  oalt (match matchAttrVal keyLogo cs with
        | some (v, r) => goTitle a b (some v) (dropSpaces r)
        | none => none)
       (fun _ => goTitle a b none cs)

/-- Regex fragment `(tvg-name="([^"]*)")?\s*…`. -/
def goName (a : Option (List Char)) (cs : List Char) : Option ExtGroups :=
  oalt (match matchAttrVal keyName cs with
        | some (v, r) => goLogo a (some v) (dropSpaces r)
        | none => none)
       (fun _ => goLogo a none cs)

/-- Regex fragment `(tvg-id="([^"]*)")?\s*…`. -/
def goId (cs : List Char) : Option ExtGroups :=
  oalt (match matchAttrVal keyId cs with
        | some (v, r) => goName (some v) (dropSpaces r)
        | none => none)
       (fun _ => goName none cs)

/-- Regex fragment `,?\s*…` (the input arrives space-free, so the `\s*`
after a skipped comma is a no-op). -/
def optComma (cs : List Char) : Option ExtGroups :=
  match cs with
  | ',' :: rest => oalt (goId (dropSpaces rest)) (fun _ => goId cs)
  | _ => goId cs

/-- `re.match` of
`#EXTINF:-?1\s*,?\s*(tvg-id="([^"]*)")?\s*(tvg-name="([^"]*)")?\s*(tvg-logo="([^"]*)")?\s*(group-title="([^"]*)")?\s*,(.+)`
on a single (already stripped) line, with Python's leftmost-greedy
backtracking made explicit through `oalt`. -/
def extinfGroups (line : List Char) : Option ExtGroups :=
  match dropStr "#EXTINF:".data line with
  | none => none
  | some r0 =>
    match r0 with
    | '-' :: '1' :: r2 => optComma (dropSpaces r2)
    | '1' :: r2 => optComma (dropSpaces r2)
    | _ => none

/-- Build the pending-channel dict from the regex groups, with the
source's defaults: `match.group(n) or ""` for id/name/logo and
`match.group(8) or "Uncategorized"` for the group title, and
`match.group(9).strip()` for the display name. -/
def extinfToChannel (g : ExtGroups) : Channel :=
  { tvgId := ⟨g.gId.getD []⟩
    tvgName := ⟨g.gName.getD []⟩
    tvgLogo := ⟨g.gLogo.getD []⟩
    groupTitle := if g.gTitle.getD [] = [] then "Uncategorized" else ⟨g.gTitle.getD []⟩
    name := ⟨pstrip g.label⟩
    url := "" }

def extinfLit : List Char := "#EXTINF".data

/-- The line loop of `parse_m3u`; `pending` is `current_channel`
(`none` for the falsy empty dict). -/
def parseLoop : List (List Char) → Option Channel → List Channel
  | [], _ => []
  | l :: ls, pending =>
    let line := pstrip l
    if hasPref extinfLit line then
      match extinfGroups line with
      | some g => parseLoop ls (some (extinfToChannel g))
      | none => parseLoop ls pending
    else
      match pending with
      | some c =>
        if !line.isEmpty && !hasPref ['#'] line then
          { c with url := ⟨line⟩ } :: parseLoop ls none
        else parseLoop ls pending
      | none => parseLoop ls pending

def parseLines (ls : List (List Char)) : List Channel := parseLoop ls none

/-- `parse_m3u` of the source: split into lines, strip each, thread the
pending channel through the loop. -/
def parse_m3u (content : String) : List Channel :=
  parseLines (splitlines content.data)

/-- Outcome of one HTTP request as the code consumes it: `err` is a raised
exception (transport failure, timeout, malformed body), `bad` a response
whose status is not 200, `ok` the decoded payload. -/
inductive Resp (α : Type) where
  | err : Resp α
  | bad : Resp α
  | ok : α → Resp α
deriving DecidableEq, Repr

/-- The three Wikipedia lookups of `fetch_logo`, keyed by the datum the
code sends: the `srsearch` text (payload: the hit titles under
`query.search`), a page title (payload: per page under `query.pages`, its
list of image titles), and an image title (payload: per page under
`query.pages`, its `imageinfo` key — `none` when the key is absent, else
the list of `url` values, `""` standing for a missing `url` key). -/
structure LogoOracle where
  search : String → Resp (List String)
  images : String → Resp (List (List String))
  info : String → Resp (List (Option (List String)))

/-- Result of the `for page … in pages` loop inside `fetch_logo`:
a `return`ed URL, loop exhaustion (fall through to the fallback), or a
raised exception (also landing on the fallback via `except`). -/
inductive LoopRes where
  | found : String → LoopRes
  | exhausted : LoopRes
  | aborted : LoopRes
deriving DecidableEq, Repr

/-- The `for page_id, page in pages.items()` loop of `fetch_logo`: take
the first image title of a page, query its `imageinfo`; a non-200 reply or
an empty pages dict falls through and continues the loop, an exception
(including the `[0]` IndexError on an explicit empty `imageinfo` list)
aborts to the fallback, otherwise the first page's first URL is returned
(`""` when the `imageinfo` or `url` key is absent). -/
def pagesLoop (info : String → Resp (List (Option (List String)))) :
    List (List String) → LoopRes
  | [] => .exhausted
  | imgs :: ps =>
    match imgs with
    | [] => pagesLoop info ps
    | imgTitle :: _ =>
      match info imgTitle with
      | .err => .aborted
      | .bad => pagesLoop info ps
      | .ok [] => pagesLoop info ps
      | .ok (none :: _) => .found ""
      | .ok (some [] :: _) => .aborted
      | .ok (some (u :: _) :: _) => .found u

def LOGO_BASE_URL : String := "https://iptv-org.github.io/logos/"

/-- The deterministic artwork fallback
`f"{LOGO_BASE_URL}{tvg_id}.png" if tvg_id else ""`. -/
def logoFallback (tvg_id : String) : String :=
  if tvg_id ≠ "" then LOGO_BASE_URL ++ tvg_id ++ ".png" else ""

/-- `fetch_logo`: three chained Wikipedia lookups; any exception, any
non-200 status on the first two hops, zero search hits, or loop
exhaustion lands on `LOGO_BASE_URL + tvg_id + ".png"` (empty string when
`tvg_id` is empty). -/
def fetch_logo (o : LogoOracle) (channel_name tvg_id : String) : String :=
  let res :=
    match o.search (channel_name ++ " television channel logo") with
    | .err => none
    | .bad => none
    | .ok [] => none
    | .ok (pageTitle :: _) =>
      match o.images pageTitle with
      | .err => none
      | .bad => none
      | .ok pages =>
        match pagesLoop o.info pages with
        | .found u => some u
        | .exhausted => none
        | .aborted => none
  match res with
  | some u => u
  | none => logoFallback tvg_id

/-- `check_channel_status`: `head url` is the HEAD response status
(`none` for a raised exception or timeout); live means status 200 or 206. -/
def check_channel_status (head : String → Option Nat) (url : String) : Bool :=
  match head url with
  | some s => s == 200 || s == 206
  | none => false

def catPrompt (channel_name : String) : String :=
  "Classify the TV channel '" ++ channel_name ++
  "' into one of these categories: Sports, Music, News, Entertainment, Kids, or Other. Return only the category name."

def engPrompt (channel_name : String) : String :=
  "Is the TV channel '" ++ channel_name ++ "' primarily in English? Return 'Yes' or 'No'."

def VALID_CATEGORIES : List String :=
  ["Sports", "Music", "News", "Entertainment", "Kids", "Other"]

/-- `categorize_channel`: `complete` is the OpenAI completion text for a
prompt (`none` for any raised error); the stripped reply is validated
against the fixed category set, anything else collapses to `"Other"`. -/
def categorize_channel (complete : String → Option String) (channel_name : String) : String :=
  match complete (catPrompt channel_name) with
  | none => "Other"
  | some t =>
    let category : String := ⟨pstrip t.data⟩
    if VALID_CATEGORIES.contains category then category else "Other"

/-- Python `str.lower()` on one character (ASCII range). -/
def lowerChar (c : Char) : Char :=
  if 'A' ≤ c ∧ c ≤ 'Z' then Char.ofNat (c.toNat + 32) else c

/-- `is_english_channel`: the stripped, lowercased reply must equal
`"yes"`; any raised error yields `false`. -/
def is_english_channel (complete : String → Option String) (channel_name : String) : Bool :=
  match complete (engPrompt channel_name) with
  | none => false
  | some t => (⟨(pstrip t.data).map lowerChar⟩ : String) == "yes"

/-- The filter-and-categorize loop of `sync_playlists` (lines 236–242):
keep a channel when the English gate passes and the resolved category is
not `"Other"`, overwriting its `group-title` with the category. -/
def filterEnglish (complete : String → Option String) (channels : List Channel) : List Channel :=
  channels.filterMap (fun c =>
    if is_english_channel complete c.name then
      let category := categorize_channel complete c.name
      if category ≠ "Other" then some { c with groupTitle := category } else none
    else none)

/-- The duplicate-handling loop of `sync_playlists` (lines 245–251):
`counts` is the `channel_counts` dict (`0` for an absent key); the n-th
entry with a given original name, n ≥ 2, is renamed `"<name> n"`. -/
def dedupChannels : List Channel → (String → Nat) → List Channel
  | [], _ => []
  | c :: cs, counts =>
    let n := counts c.name + 1
    let c' := if n > 1 then { c with name := c.name ++ " " ++ toString n } else c
    c' :: dedupChannels cs (fun s => if s = c.name then n else counts s)

/-- All collaborator responses a sync run consumes.  `fetchPl` maps a
playlist URL to its body (`none`: non-200 or exception), `complete` an
OpenAI prompt to the completion text, `head` a stream URL to the HEAD
status, `logo` bundles the Wikipedia hops, `epgDoc` is the channel-id →
programme-list mapping parsed from the EPG document (`none`: fetch or
parse failure, which `fetch_epg` folds into an empty mapping), `now` the
clock value read at commit time. -/
structure Oracles where
  fetchPl : String → Option String
  complete : String → Option String
  head : String → Option Nat
  logo : LogoOracle
  epgDoc : Option (List (String × List ScheduleSlot))
  now : Nat

/-- `fetch_epg`: any failure returns the empty mapping. -/
def fetch_epg (o : Oracles) : List (String × List ScheduleSlot) :=
  o.epgDoc.getD []

/-- Python `dict.get(key, [])` on the EPG mapping. -/
def epgLookup (m : List (String × List ScheduleSlot)) (k : String) : List ScheduleSlot :=
  match m.find? (fun p => p.1 == k) with
  | some p => p.2
  | none => []

/-- Steps 1–2 of `sync_playlists`: fetch every source (a failed fetch
contributes nothing), parse each body, concatenate in source order. -/
def sync_parsed (o : Oracles) (playlist_urls : List String) : List Channel :=
  (playlist_urls.filterMap o.fetchPl).flatMap parse_m3u

/-- Steps 3–4 of `sync_playlists`: the deduplicated candidate list. -/
def sync_final (o : Oracles) (playlist_urls : List String) : List Channel :=
  dedupChannels (filterEnglish o.complete (sync_parsed o playlist_urls)) (fun _ => 0)

/-- The per-channel enrichment of `sync_playlists` (lines 255–263): probe
the stream URL, resolve the logo (the resolver never raises, so the
`isinstance` guard of line 262 always takes its first branch), and attach
the EPG slots for the channel's `tvg-id`. -/
def enrich (o : Oracles) (c : Channel) : LiveChannel :=
  { toChannel := { c with tvgLogo := fetch_logo o.logo c.name c.tvgId }
    status := if check_channel_status o.head c.url then "Live" else "Offline"
    epg := epgLookup (fetch_epg o) c.tvgId }

/-- The process-wide published snapshot: the globals `combined_playlist`
and `last_sync_time` (`none` before the first successful sync). -/
structure CommittedState where
  entries : List LiveChannel
  syncedAt : Option Nat
deriving DecidableEq, Repr

/-- `sync_playlists`: builds the new entry list from scratch (the
previous state is never read) and replaces the snapshot wholesale at the
end, together with the fresh timestamp. -/
def sync_playlists (o : Oracles) (playlist_urls : List String)
    (_prev : CommittedState) : CommittedState :=
  { entries := (sync_final o playlist_urls).map (enrich o)
    syncedAt := some o.now }

/-- The `/sync` route handler (lines 288–295): with an empty stored URL
list it reports the no-sources error and does not invoke
`sync_playlists`, leaving the snapshot untouched. -/
def syncRoute (o : Oracles) (stored : List String) (st : CommittedState) :
    Except String Unit × CommittedState :=
  if stored.isEmpty then
    (Except.error "No playlist URLs stored. Please add playlists first.", st)
  else
    (Except.ok (), sync_playlists o stored st)

/-- The per-channel text block of `generate_m3u`. -/
def genBody : List LiveChannel → String
  | [] => ""
  | c :: cs =>
    "#EXTINF:-1 tvg-id=\"" ++ c.tvgId ++ "\" tvg-name=\"" ++ c.tvgName ++
    "\" tvg-logo=\"" ++ c.tvgLogo ++ "\" group-title=\"" ++ c.groupTitle ++
    "\"," ++ c.name ++ " (" ++ c.status ++ ")\n" ++ c.url ++ "\n" ++ genBody cs

/-- `generate_m3u`: header line, then one metadata line and one URL line
per committed channel. -/
def generate_m3u (combined_playlist : List LiveChannel) : String :=
  "#EXTM3U\n" ++ genBody combined_playlist

/-- Number of entries among the first `i+1` of `l` whose original name is
`nm` — the value `channel_counts[nm]` holds after processing entry `i`
when the dict starts empty. -/
def occUpTo (l : List Channel) (i : Nat) (nm : String) : Nat :=
  (l.take (i + 1)).countP (fun c => c.name == nm)

/-- No double-quote character (such a value crosses the `[^"]*` capture
boundary of the metadata regex). -/
def qfree (cs : List Char) : Bool := cs.all (fun c => c != '"')

/-- No character of the `splitlines` boundary set (such a value survives
`splitlines` intact). -/
def noNL (cs : List Char) : Bool := cs.all (fun c => !isBreak c)

/-- A committed channel whose rendered text block reparses cleanly: the
quoted attribute values contain no `"`, no field embeds a line break, the
group title is nonempty (an empty one reparses as `"Uncategorized"`), the
display name and stream URL are already stripped and nonempty, and the
URL does not begin with `#`. -/
def saneLive (c : LiveChannel) : Bool :=
  qfree c.tvgId.data && qfree c.tvgName.data && qfree c.tvgLogo.data &&
  qfree c.groupTitle.data &&
  noNL c.tvgId.data && noNL c.tvgName.data && noNL c.tvgLogo.data &&
  noNL c.groupTitle.data && noNL c.name.data && noNL c.status.data &&
  noNL c.url.data &&
  !c.groupTitle.data.isEmpty &&
  (pstrip c.name.data == c.name.data) && !c.name.data.isEmpty &&
  (pstrip c.url.data == c.url.data) && !c.url.data.isEmpty &&
  !hasPref ['#'] c.url.data

/-- What one committed channel becomes after its rendered block is parsed
back: the four attribute fields and the URL verbatim, the display name
with the live status folded into the label by the serializer. -/
def reparsedChannel (c : LiveChannel) : Channel :=
  { tvgId := c.tvgId
    tvgName := c.tvgName
    tvgLogo := c.tvgLogo
    groupTitle := c.groupTitle
    name := c.name ++ " (" ++ c.status ++ ")"
    url := c.url }

/-- Collaborators in which every external call fails. -/
def trivOracles : Oracles :=
  { fetchPl := fun _ => none
    complete := fun _ => none
    head := fun _ => none
    logo := { search := fun _ => .err, images := fun _ => .err, info := fun _ => .err }
    epgDoc := none
    now := 1 }

/-- Deterministic stub collaborators serving one source with three
channels (one non-English), a live first stream, and EPG data for `n24`;
used to instantiate the theorems at concrete inputs. -/
def demoOracles : Oracles :=
  { fetchPl := fun u =>
      if u = "http://src" then
        some "#EXTM3U\n#EXTINF:-1 tvg-id=\"n24\",News24\nhttp://s1\n#EXTINF:-1,News24\nhttp://s2\n#EXTINF:-1,Foreign\nhttp://s3"
      else none
    complete := fun p =>
      if p = engPrompt "Foreign" then some "No"
      else if p = catPrompt "News24" then some "News"
      else some "Yes"
    head := fun u => if u = "http://s1" then some 200 else none
    logo := { search := fun _ => .ok [], images := fun _ => .err, info := fun _ => .err }
    epgDoc := some [("n24", [⟨"20260101", "20260102", "Show"⟩])]
    now := 42 }

/-- Concrete channel used in examples: display name `nm`, empty
attributes, stream URL `u`. -/
def mkChan (nm u : String) : Channel :=
  { tvgId := "", tvgName := "", tvgLogo := "", groupTitle := "Uncategorized"
    name := nm, url := u }

/-- Concrete committed channel used in the round-trip examples. -/
def demoLive : LiveChannel :=
  { tvgId := "i1", tvgName := "h1", tvgLogo := "http://logo.png"
    groupTitle := "News", name := "A", url := "http://u"
    status := "Live", epg := [] }

/-- The candidate list of the spec's dedup example. -/
def dedupDemo : List Channel :=
  [mkChan "A" "u1", mkChan "B" "u2", mkChan "A" "u3", mkChan "A" "u4"]

/-- The label part of a rendered metadata line,
`<name> (<status>)`, as characters. -/
def labelChars (c : LiveChannel) : List Char :=
  c.name.data ++ ' ' :: '(' :: (c.status.data ++ [')'])

/-- The metadata line `generate_m3u` renders for one channel, as
characters, grouped the way the regex engine consumes it. -/
def metaChars (c : LiveChannel) : List Char :=
  "#EXTINF:".data ++ '-' :: '1' :: ' ' ::
    (keyId ++ (c.tvgId.data ++ '"' :: ' ' ::
      (keyName ++ (c.tvgName.data ++ '"' :: ' ' ::
        (keyLogo ++ (c.tvgLogo.data ++ '"' :: ' ' ::
          (keyTitle ++ (c.groupTitle.data ++ '"' :: ',' :: labelChars c))))))))

/-- The line sequence `splitlines` recovers from `genBody`'s output. -/
def genLines : List LiveChannel → List (List Char)
  | [] => []
  | c :: cs => metaChars c :: c.url.data :: genLines cs

theorem dedupChannels_length (l : List Channel) (counts : String → Nat) :
    (dedupChannels l counts).length = l.length := by
  induction l generalizing counts with
  | nil => rfl
  | cons c cs ih => simp [dedupChannels, ih]

theorem dedupChannels_get? (l : List Channel) (counts : String → Nat) (i : Nat)
    (c : Channel) (h : l.get? i = some c) :
    (dedupChannels l counts).get? i =
      some (if counts c.name + occUpTo l i c.name = 1 then c
            else { c with name := c.name ++ " " ++
                     toString (counts c.name + occUpTo l i c.name) }) := by
  induction l generalizing counts i with
  | nil => simp at h
  | cons a cs ih =>
    cases i with
    | zero =>
      have hac : a = c := by simpa using h
      subst hac
      have hocc : occUpTo (a :: cs) 0 a.name = 1 := by
        simp [occUpTo, List.take_succ_cons, List.countP_cons]
      simp only [dedupChannels, List.get?_cons_zero, hocc, Option.some.injEq]
      by_cases h0 : counts a.name = 0
      · simp [h0]
      · have h1 : counts a.name + 1 > 1 := by omega
        have h2 : ¬counts a.name + 1 = 1 := by omega
        simp [h1, h2]
    | succ j =>
      have hj : cs.get? j = some c := by simpa using h
      have hrec := ih (fun s => if s = a.name then counts a.name + 1 else counts s) j hj
      have harith :
          (if c.name = a.name then counts a.name + 1 else counts c.name)
            + occUpTo cs j c.name
          = counts c.name + occUpTo (a :: cs) (j + 1) c.name := by
        by_cases hcn : c.name = a.name
        · rw [if_pos hcn, hcn]
          have hb : (a.name == a.name) = true := beq_self_eq_true _
          simp [occUpTo, List.take_succ_cons, List.countP_cons, hb]
          omega
        · rw [if_neg hcn]
          have hb : (a.name == c.name) = false := by
            exact beq_eq_false_iff_ne.mpr (Ne.symm hcn)
          simp [occUpTo, List.take_succ_cons, List.countP_cons, hb]
      simp only [dedupChannels, List.get?_cons_succ]
      rw [hrec, harith]

/-- C1.  Deduplication by display name: the dedup pass of
`sync_playlists` keeps every candidate (same length, same positions), the
first occurrence of a name is kept verbatim, the k-th occurrence (k ≥ 2)
of the same original name is renamed `"<name> k"`, and the candidate
names `["A","B","A","A"]` commit as `["A","B","A 2","A 3"]`. -/
theorem dedup_renames_by_occurrence (l : List Channel) (i : Nat) (c : Channel)
    (h : l.get? i = some c) :
    (dedupChannels l (fun _ => 0)).length = l.length ∧
    (dedupChannels l (fun _ => 0)).get? i =
      some (if occUpTo l i c.name = 1 then c
            else { c with name := c.name ++ " " ++ toString (occUpTo l i c.name) }) ∧
    dedupChannels dedupDemo (fun _ => 0) =
      [mkChan "A" "u1", mkChan "B" "u2",
       { mkChan "A" "u3" with name := "A 2" }, { mkChan "A" "u4" with name := "A 3" }] := by
  refine ⟨dedupChannels_length l _, ?_, by decide⟩
  have := dedupChannels_get? l (fun _ => 0) i c h
  simpa using this

/-- Witness for C1 at the spec's example, position 4 (the third "A"). -/
theorem dedup_renames_by_occurrence_w :
    (dedupChannels dedupDemo (fun _ => 0)).get? 3 =
      some { mkChan "A" "u4" with name := "A 3" } := by
  have h := (dedup_renames_by_occurrence dedupDemo 3 (mkChan "A" "u4") (by decide)).2.1
  rw [h]; decide

/-- C2 counterexample: invoking the orchestrator `sync_playlists` itself
with an empty source list does run and does change the committed state
(it commits an empty snapshot with a fresh timestamp). -/
theorem sync_empty_list_still_commits :
    sync_playlists trivOracles [] ⟨[], none⟩ ≠ ⟨[], none⟩ := by decide

/-- C2 amended: the no-sources-configured precondition is enforced by the
HTTP route before the orchestrator is invoked — with an empty stored URL
list the route reports the error and leaves the committed state
untouched; `sync_playlists` itself performs no emptiness check, and if
called with `[]` it commits an empty snapshot with a fresh timestamp. -/
theorem empty_sources_guard_in_route (o : Oracles) (st : CommittedState) :
    syncRoute o [] st =
      (Except.error "No playlist URLs stored. Please add playlists first.", st) ∧
    sync_playlists o [] st = { entries := [], syncedAt := some o.now } :=
  ⟨rfl, rfl⟩

/-- C4.  Filtering policy of `sync_playlists`: entries are filtered
independently (the filter distributes over concatenation), a single entry
is kept exactly when the English gate passes and the resolved category is
not `"Other"` (its group title then being the category), and an entry for
which either external call raises is excluded. -/
theorem filter_keeps_iff_english_and_category
    (complete : String → Option String) (l₁ l₂ : List Channel) (c : Channel)
    (hf : complete (engPrompt c.name) = none ∨ complete (catPrompt c.name) = none) :
    filterEnglish complete (l₁ ++ l₂) =
      filterEnglish complete l₁ ++ filterEnglish complete l₂ ∧
    (∀ d : Channel,
      filterEnglish complete [d] =
        if is_english_channel complete d.name = true ∧
           categorize_channel complete d.name ≠ "Other"
        then [{ d with groupTitle := categorize_channel complete d.name }]
        else []) ∧
    filterEnglish complete [c] = [] := by
  refine ⟨by simp [filterEnglish, List.filterMap_append], ?_, ?_⟩
  · intro d
    by_cases he : is_english_channel complete d.name <;>
      by_cases hc2 : categorize_channel complete d.name = "Other" <;>
        simp [filterEnglish, he, hc2]
  · rcases hf with hf | hf
    · have he : is_english_channel complete c.name = false := by
        simp [is_english_channel, hf]
      simp [filterEnglish, he]
    · have hc2 : categorize_channel complete c.name = "Other" := by
        simp [categorize_channel, hf]
      by_cases he : is_english_channel complete c.name <;>
        simp [filterEnglish, he, hc2]

/-- Witness for C4: with every collaborator call failing, a channel is
excluded. -/
theorem filter_keeps_iff_english_and_category_w :
    filterEnglish (fun _ => none) [mkChan "X" "u"] = [] :=
  (filter_keeps_iff_english_and_category (fun _ => none) [] []
    (mkChan "X" "u") (Or.inl rfl)).2.2

theorem pagesLoop_soft_fail (info : String → Resp (List (Option (List String))))
    (pages : List (List String))
    (h : ∀ imgs ∈ pages, ∀ t ts, imgs = t :: ts →
           (info t = Resp.bad ∨ info t = Resp.ok [])) :
    pagesLoop info pages = LoopRes.exhausted := by
  induction pages with
  | nil => rfl
  | cons imgs ps ih =>
    have hrest : ∀ i ∈ ps, ∀ t ts, i = t :: ts → (info t = Resp.bad ∨ info t = Resp.ok []) :=
      fun i hi => h i (List.mem_cons_of_mem _ hi)
    cases imgs with
    | nil => simpa [pagesLoop] using ih hrest
    | cons t ts =>
      rcases h (t :: ts) (List.mem_cons_self _ _) t ts rfl with hb | hb <;>
        simpa [pagesLoop, hb] using ih hrest


/-- C6.  Artwork resolution fallback in `fetch_logo`: a transport failure
or non-200 status at the search hop, zero search hits, failure of the
image-list hop, every page lacking images or soft-failing the third hop,
or an exception at the third hop, all land on the deterministic fallback
`LOGO_BASE_URL + id + ".png"` (empty when the id is empty); in
particular a search with zero hits and id `"bbc1"` resolves to
`<logoBaseURL>bbc1.png`. -/
theorem fetch_logo_fallback (o : LogoOracle) (nm id pageTitle : String)
    (ts : List String) (pages : List (List String)) :
    (o.search (nm ++ " television channel logo") = Resp.err →
      fetch_logo o nm id = logoFallback id) ∧
    (o.search (nm ++ " television channel logo") = Resp.bad →
      fetch_logo o nm id = logoFallback id) ∧
    (o.search (nm ++ " television channel logo") = Resp.ok [] →
      fetch_logo o nm id = logoFallback id) ∧
    (o.search (nm ++ " television channel logo") = Resp.ok (pageTitle :: ts) →
      (o.images pageTitle = Resp.err ∨ o.images pageTitle = Resp.bad) →
      fetch_logo o nm id = logoFallback id) ∧
    (o.search (nm ++ " television channel logo") = Resp.ok (pageTitle :: ts) →
      o.images pageTitle = Resp.ok pages →
      (∀ imgs ∈ pages, ∀ t tl, imgs = t :: tl →
        (o.info t = Resp.bad ∨ o.info t = Resp.ok [])) →
      fetch_logo o nm id = logoFallback id) ∧
    (∀ t tl ps, o.search (nm ++ " television channel logo") = Resp.ok (pageTitle :: ts) →
      o.images pageTitle = Resp.ok ((t :: tl) :: ps) →
      o.info t = Resp.err →
      fetch_logo o nm id = logoFallback id) ∧
    (o.search (nm ++ " television channel logo") = Resp.ok [] → id = "bbc1" →
      fetch_logo o nm id = LOGO_BASE_URL ++ "bbc1.png") := by
  refine ⟨?_, ?_, ?_, ?_, ?_, ?_, ?_⟩
  · intro hs; simp [fetch_logo, hs]
  · intro hs; simp [fetch_logo, hs]
  · intro hs; simp [fetch_logo, hs]
  · intro hs hi; rcases hi with hi | hi <;> simp [fetch_logo, hs, hi]
  · intro hs hi hsoft
    simp [fetch_logo, hs, hi, pagesLoop_soft_fail o.info pages hsoft]
  · intro t tl ps hs hi hinfo
    simp [fetch_logo, hs, hi, pagesLoop, hinfo]
  · intro hs hid
    subst hid
    simp [fetch_logo, hs, logoFallback, LOGO_BASE_URL]

/-- Witness for C6 at the spec's example: zero search hits, id "bbc1". -/
theorem fetch_logo_fallback_w :
    fetch_logo demoOracles.logo "BBC One" "bbc1" =
      LOGO_BASE_URL ++ "bbc1.png" :=
  (fetch_logo_fallback demoOracles.logo "BBC One" "bbc1" "" [] []).2.2.2.2.2.2
    rfl rfl

/-- C7.  Liveness probe: `check_channel_status` is true exactly when the
HEAD status is 200 or 206, any raised error (modelled `none`) yields
false and can never propagate, and a committed entry whose probe raised
carries `status = "Offline"`. -/
theorem probe_success_iff_ok_status (head : String → Option Nat) (url : String)
    (o : Oracles) (urls : List String) (st : CommittedState) (c : LiveChannel)
    (hc : c ∈ (sync_playlists o urls st).entries) (hh : o.head c.url = none) :
    (check_channel_status head url = true ↔
      (head url = some 200 ∨ head url = some 206)) ∧
    (head url = none → check_channel_status head url = false) ∧
    c.status = "Offline" := by
  refine ⟨?_, ?_, ?_⟩
  · cases hu : head url with
    | none => simp [check_channel_status, hu]
    | some s =>
      simp [check_channel_status, hu]
  · intro hu; simp [check_channel_status, hu]
  · rcases List.mem_map.mp hc with ⟨c0, _, rfl⟩
    have : o.head c0.url = none := hh
    simp [enrich, check_channel_status, this]

/-- Witness for C7: the second demo entry's probe raises, and it is
committed Offline. -/
theorem probe_success_iff_ok_status_w :
    ({ toChannel := { tvgId := "", tvgName := "", tvgLogo := ""
                      groupTitle := "News", name := "News24 2", url := "http://s2" }
       status := "Offline", epg := [] } : LiveChannel).status = "Offline" := by
  have hent : (sync_playlists demoOracles ["http://src"] ⟨[], none⟩).entries =
      [{ toChannel := { tvgId := "n24", tvgName := ""
                        tvgLogo := "https://iptv-org.github.io/logos/n24.png"
                        groupTitle := "News", name := "News24", url := "http://s1" }
         status := "Live", epg := [⟨"20260101", "20260102", "Show"⟩] },
       { toChannel := { tvgId := "", tvgName := "", tvgLogo := ""
                        groupTitle := "News", name := "News24 2", url := "http://s2" }
         status := "Offline", epg := [] }] := by decide
  refine (probe_success_iff_ok_status (fun _ => none) "u" demoOracles ["http://src"]
    ⟨[], none⟩
    { toChannel := { tvgId := "", tvgName := "", tvgLogo := ""
                     groupTitle := "News", name := "News24 2", url := "http://s2" }
      status := "Offline", epg := [] } ?_ rfl).2.2
  rw [hent]
  simp

/-- C9.  Atomic commit: `sync_playlists` never reads the previous
snapshot (the result is the same from any prior state), publishes exactly
the fully enriched deduplicated candidate list together with the fresh
timestamp as one whole value, and every published entry carries a
completed enrichment (`status` is `"Live"` or `"Offline"`, never
absent). -/
theorem sync_commits_whole_snapshot (o : Oracles) (urls : List String)
    (st st2 : CommittedState) (e : LiveChannel)
    (he : e ∈ (sync_playlists o urls st).entries) :
    sync_playlists o urls st = sync_playlists o urls st2 ∧
    (sync_playlists o urls st).entries = (sync_final o urls).map (enrich o) ∧
    (sync_playlists o urls st).syncedAt = some o.now ∧
    (e.status = "Live" ∨ e.status = "Offline") := by
  refine ⟨rfl, rfl, rfl, ?_⟩
  rcases List.mem_map.mp he with ⟨c0, _, rfl⟩
  by_cases hcheck : check_channel_status o.head c0.url <;> simp [enrich, hcheck]

/-- Witness for C9: the first demo entry is fully enriched. -/
theorem sync_commits_whole_snapshot_w :
    (({ toChannel := { tvgId := "n24", tvgName := ""
                       tvgLogo := "https://iptv-org.github.io/logos/n24.png"
                       groupTitle := "News", name := "News24", url := "http://s1" }
        status := "Live"
        epg := [⟨"20260101", "20260102", "Show"⟩] } : LiveChannel).status = "Live" ∨
     ({ toChannel := { tvgId := "n24", tvgName := ""
                       tvgLogo := "https://iptv-org.github.io/logos/n24.png"
                       groupTitle := "News", name := "News24", url := "http://s1" }
        status := "Live"
        epg := [⟨"20260101", "20260102", "Show"⟩] } : LiveChannel).status = "Offline") := by
  have hent : (sync_playlists demoOracles ["http://src"] ⟨[], none⟩).entries =
      [{ toChannel := { tvgId := "n24", tvgName := ""
                        tvgLogo := "https://iptv-org.github.io/logos/n24.png"
                        groupTitle := "News", name := "News24", url := "http://s1" }
         status := "Live", epg := [⟨"20260101", "20260102", "Show"⟩] },
       { toChannel := { tvgId := "", tvgName := "", tvgLogo := ""
                        groupTitle := "News", name := "News24 2", url := "http://s2" }
         status := "Offline", epg := [] }] := by decide
  refine (sync_commits_whole_snapshot demoOracles ["http://src"] ⟨[], none⟩
    ⟨[], some 0⟩ _ ?_).2.2.2
  rw [hent]
  simp

theorem hasPref_hash_of_extinf (cs : List Char)
    (h : hasPref extinfLit cs = true) : hasPref ['#'] cs = true := by
  cases cs with
  | nil => simp [extinfLit, hasPref] at h
  | cons c r =>
    have hc : ('#' == c) = true := by
      have := h
      simp only [extinfLit, hasPref, Bool.and_eq_true] at this
      exact this.1
    simp [hasPref, hc]

theorem parseLoop_meta (l : List Char) (ls : List (List Char)) (p : Option Channel)
    (g : ExtGroups) (h1 : hasPref extinfLit (pstrip l) = true)
    (hg : extinfGroups (pstrip l) = some g) :
    parseLoop (l :: ls) p = parseLoop ls (some (extinfToChannel g)) := by
  simp [parseLoop, h1, hg]

theorem parseLoop_badmeta (l : List Char) (ls : List (List Char)) (p : Option Channel)
    (h1 : hasPref extinfLit (pstrip l) = true)
    (hg : extinfGroups (pstrip l) = none) :
    parseLoop (l :: ls) p = parseLoop ls p := by
  simp [parseLoop, h1, hg]

theorem parseLoop_urlline (l : List Char) (ls : List (List Char)) (c : Channel)
    (h1 : hasPref extinfLit (pstrip l) = false)
    (h2 : (pstrip l).isEmpty = false)
    (h3 : hasPref ['#'] (pstrip l) = false) :
    parseLoop (l :: ls) (some c) =
      { c with url := ⟨pstrip l⟩ } :: parseLoop ls none := by
  simp [parseLoop, h1, h2, h3]

theorem parseLoop_none_other (l : List Char) (ls : List (List Char))
    (h1 : hasPref extinfLit (pstrip l) = false) :
    parseLoop (l :: ls) none = parseLoop ls none := by
  simp [parseLoop, h1]

theorem parseLoop_some_skip (l : List Char) (ls : List (List Char)) (c : Channel)
    (h1 : hasPref extinfLit (pstrip l) = false)
    (h2 : (pstrip l).isEmpty = true ∨ hasPref ['#'] (pstrip l) = true) :
    parseLoop (l :: ls) (some c) = parseLoop ls (some c) := by
  rcases h2 with h2 | h2 <;> simp [parseLoop, h1, h2]

/-- C3 counterexample: after a matching metadata line, a metadata line
that fails the pattern is ignored but the pending entry survives, so the
next URL line does yield an entry — the claim's "regardless of what lines
preceded" fails. -/
theorem url_after_bad_extinf_attaches :
    parse_m3u "#EXTINF:-1,Good\n#EXTINF:bad\nhttp://x" =
      [mkChan "Good" "http://x"] ∧
    parse_m3u "#EXTINF:-1,Good\n#EXTINF:bad\nhttp://x" ≠ [] := by
  constructor
  · decide
  · decide

/-- C3 amended: a metadata line that fails the `#EXTINF` pattern is a
complete no-op — ignored, starting no pending entry and leaving any
previously pending entry in place; consequently a URL line directly
following it is dropped whenever no pending entry is open (in particular
at the start of the input), while with an open pending entry the URL
attaches to that earlier entry. -/
theorem bad_extinf_line_is_noop (m u : List Char) (lines : List (List Char))
    (p : Option Channel)
    (h1 : hasPref extinfLit (pstrip m) = true)
    (h2 : extinfGroups (pstrip m) = none)
    (h3 : (pstrip u).isEmpty = false)
    (h4 : hasPref ['#'] (pstrip u) = false) :
    parseLoop (m :: lines) p = parseLoop lines p ∧
    parseLines (m :: u :: lines) = parseLines lines := by
  refine ⟨parseLoop_badmeta m lines p h1 h2, ?_⟩
  have hu : hasPref extinfLit (pstrip u) = false := by
    cases hx : hasPref extinfLit (pstrip u) with
    | false => rfl
    | true => rw [hasPref_hash_of_extinf _ hx] at h4; cases h4
  unfold parseLines
  rw [parseLoop_badmeta m _ none h1 h2, parseLoop_none_other u _ hu]

/-- Witness for C3 (amended) at a bad metadata line followed by a URL. -/
theorem bad_extinf_line_is_noop_w :
    parseLines ["#EXTINF:bad".data, "http://x".data, "#EXTINF:-1,Z".data] =
      parseLines ["#EXTINF:-1,Z".data] :=
  (bad_extinf_line_is_noop "#EXTINF:bad".data "http://x".data
    ["#EXTINF:-1,Z".data] none (by decide) (by decide) (by decide) (by decide)).2

/-- C10.  Two matching metadata lines with no URL line between them: the
second silently overwrites the first's pending entry, so the following
URL line emits exactly one entry carrying the second line's metadata, and
the first line yields no entry even though a URL line follows it. -/
theorem second_metadata_overwrites (m1 m2 u : List Char)
    (lines : List (List Char)) (g1 g2 : ExtGroups)
    (hm1 : hasPref extinfLit (pstrip m1) = true)
    (hg1 : extinfGroups (pstrip m1) = some g1)
    (hm2 : hasPref extinfLit (pstrip m2) = true)
    (hg2 : extinfGroups (pstrip m2) = some g2)
    (h3 : (pstrip u).isEmpty = false)
    (h4 : hasPref ['#'] (pstrip u) = false) :
    parseLines (m1 :: m2 :: u :: lines) =
      { extinfToChannel g2 with url := ⟨pstrip u⟩ } :: parseLines lines := by
  have hu : hasPref extinfLit (pstrip u) = false := by
    cases hx : hasPref extinfLit (pstrip u) with
    | false => rfl
    | true => rw [hasPref_hash_of_extinf _ hx] at h4; cases h4
  unfold parseLines
  rw [parseLoop_meta m1 _ none g1 hm1 hg1, parseLoop_meta m2 _ _ g2 hm2 hg2,
    parseLoop_urlline u _ _ hu h3 h4]

/-- Witness for C10 on two concrete metadata lines and one URL line. -/
theorem second_metadata_overwrites_w :
    parseLines ["#EXTINF:-1,First".data, "#EXTINF:-1,Second".data,
                "http://u".data] =
      [mkChan "Second" "http://u"] := by
  have h := second_metadata_overwrites "#EXTINF:-1,First".data
    "#EXTINF:-1,Second".data "http://u".data []
    ⟨none, none, none, none, "First".data⟩ ⟨none, none, none, none, "Second".data⟩
    (by decide) (by decide) (by decide) (by decide) (by decide) (by decide)
  rw [h]; decide

theorem parseLoop_append_meta (ls : List (List Char)) (m : List Char)
    (p : Option Channel) (hm : hasPref extinfLit (pstrip m) = true) :
    parseLoop (ls ++ [m]) p = parseLoop ls p := by
  induction ls generalizing p with
  | nil =>
    cases hg : extinfGroups (pstrip m) with
    | some g => simp [parseLoop, hm, hg]
    | none => simp [parseLoop, hm, hg]
  | cons l ls ih =>
    rw [List.cons_append]
    by_cases h1 : hasPref extinfLit (pstrip l) = true
    · cases hg : extinfGroups (pstrip l) with
      | some g =>
        rw [parseLoop_meta l _ p g h1 hg, parseLoop_meta l _ p g h1 hg, ih]
      | none =>
        rw [parseLoop_badmeta l _ p h1 hg, parseLoop_badmeta l _ p h1 hg, ih]
    · have h1f : hasPref extinfLit (pstrip l) = false := by
        cases hx : hasPref extinfLit (pstrip l) with
        | false => rfl
        | true => exact absurd hx h1
      cases p with
      | none =>
        rw [parseLoop_none_other l _ h1f, parseLoop_none_other l _ h1f, ih]
      | some c =>
        by_cases h2 : (pstrip l).isEmpty = false
        · by_cases h3 : hasPref ['#'] (pstrip l) = false
          · rw [parseLoop_urlline l _ c h1f h2 h3, parseLoop_urlline l _ c h1f h2 h3, ih]
          · have h3t : hasPref ['#'] (pstrip l) = true := by
              cases hx : hasPref ['#'] (pstrip l) with
              | false => exact absurd hx h3
              | true => rfl
            rw [parseLoop_some_skip l _ c h1f (Or.inr h3t),
              parseLoop_some_skip l _ c h1f (Or.inr h3t), ih]
        · have h2t : (pstrip l).isEmpty = true := by
            cases hx : (pstrip l).isEmpty with
            | false => exact absurd hx h2
            | true => rfl
          rw [parseLoop_some_skip l _ c h1f (Or.inl h2t),
            parseLoop_some_skip l _ c h1f (Or.inl h2t), ih]

theorem parseLoop_provenance (lines : List (List Char)) (p : Option Channel)
    (c : Channel) (hc : c ∈ parseLoop lines p) :
    (∃ pc u, p = some pc ∧ c = { pc with url := u }) ∨
    (∃ g u, c = { extinfToChannel g with url := u }) := by
  induction lines generalizing p with
  | nil => simp [parseLoop] at hc
  | cons l ls ih =>
    by_cases h1 : hasPref extinfLit (pstrip l) = true
    · cases hg : extinfGroups (pstrip l) with
      | some g =>
        rw [parseLoop_meta l _ p g h1 hg] at hc
        rcases ih _ hc with ⟨pc, u, hpc, hcu⟩ | hr
        · right
          refine ⟨g, u, ?_⟩
          have hpc2 : extinfToChannel g = pc := Option.some_injective _ hpc
          rw [hcu, ← hpc2]
        · right; exact hr
      | none =>
        rw [parseLoop_badmeta l _ p h1 hg] at hc
        exact ih _ hc
    · have h1f : hasPref extinfLit (pstrip l) = false := by
        cases hx : hasPref extinfLit (pstrip l) with
        | false => rfl
        | true => exact absurd hx h1
      cases p with
      | none =>
        rw [parseLoop_none_other l _ h1f] at hc
        rcases ih _ hc with ⟨pc, u, hpc, hcu⟩ | hr
        · exact absurd hpc (by simp)
        · right; exact hr
      | some pc =>
        by_cases h2 : (pstrip l).isEmpty = false
        · by_cases h3 : hasPref ['#'] (pstrip l) = false
          · rw [parseLoop_urlline l _ pc h1f h2 h3] at hc
            rcases List.mem_cons.mp hc with hc | hc
            · left; exact ⟨pc, ⟨pstrip l⟩, rfl, hc⟩
            · rcases ih _ hc with ⟨pc2, u, hpc2, hcu⟩ | hr
              · exact absurd hpc2 (by simp)
              · right; exact hr
          · have h3t : hasPref ['#'] (pstrip l) = true := by
              cases hx : hasPref ['#'] (pstrip l) with
              | false => exact absurd hx h3
              | true => rfl
            rw [parseLoop_some_skip l _ pc h1f (Or.inr h3t)] at hc
            exact ih _ hc
        · have h2t : (pstrip l).isEmpty = true := by
            cases hx : (pstrip l).isEmpty with
            | false => exact absurd hx h2
            | true => rfl
          rw [parseLoop_some_skip l _ pc h1f (Or.inl h2t)] at hc
          exact ih _ hc

/-- C5.  Parsing is total by construction (`parse_m3u` is a total
function); a metadata line left pending at end-of-input emits nothing
(appending it to any input changes no output); every emitted entry is a
completed pending entry built by `extinfToChannel`; and an absent capture
group defaults to the empty string for id, name-hint and logo and to
`"Uncategorized"` for the category. -/
theorem parse_total_and_defaults (ls : List (List Char)) (m : List Char)
    (s : String) (c : Channel) (g : ExtGroups)
    (hm : hasPref extinfLit (pstrip m) = true)
    (hc : c ∈ parse_m3u s) :
    parseLines (ls ++ [m]) = parseLines ls ∧
    (∃ g2 u, c = { extinfToChannel g2 with url := u }) ∧
    ((g.gId = none → (extinfToChannel g).tvgId = "") ∧
     (g.gName = none → (extinfToChannel g).tvgName = "") ∧
     (g.gLogo = none → (extinfToChannel g).tvgLogo = "") ∧
     (g.gTitle = none → (extinfToChannel g).groupTitle = "Uncategorized")) := by
  refine ⟨parseLoop_append_meta ls m none hm, ?_, ?_⟩
  · rcases parseLoop_provenance _ _ _ hc with ⟨pc, u, hpc, _⟩ | hr
    · exact absurd hpc (by simp)
    · exact hr
  · refine ⟨?_, ?_, ?_, ?_⟩ <;> intro h <;> simp [extinfToChannel, h]

/-- Witness for C5: a trailing metadata line emits nothing, and the
all-defaults entry parsed from a bare metadata line. -/
theorem parse_total_and_defaults_w :
    parseLines (["#EXTINF:-1,Good".data, "http://x".data] ++ ["#EXTINF:-1,Tail".data]) =
      parseLines ["#EXTINF:-1,Good".data, "http://x".data] ∧
    (∃ g2 u, mkChan "Good" "http://x" = { extinfToChannel g2 with url := u }) := by
  have h := parse_total_and_defaults ["#EXTINF:-1,Good".data, "http://x".data]
    "#EXTINF:-1,Tail".data "#EXTINF:-1,Good\nhttp://x" (mkChan "Good" "http://x")
    ⟨none, none, none, none, "Good".data⟩ (by decide) (by decide)
  exact ⟨h.1, h.2.1⟩

theorem sdata_app (a b : String) : (a ++ b).data = a.data ++ b.data := rfl

theorem dropStr_app (k r : List Char) : dropStr k (k ++ r) = some r := by
  induction k with
  | nil => rfl
  | cons c cs ih => simp [dropStr, ih]

theorem takeWhile_qfree (v w : List Char) (h : qfree v = true) :
    (v ++ w).takeWhile (fun c => c != '"') = v ++ w.takeWhile (fun c => c != '"') := by
  induction v with
  | nil => rfl
  | cons c cs ih =>
    rw [qfree, List.all_cons, Bool.and_eq_true] at h
    have ih2 := ih (by simpa [qfree] using h.2)
    simp [List.takeWhile_cons, h.1, ih2]

theorem dropWhile_qfree (v w : List Char) (h : qfree v = true) :
    (v ++ w).dropWhile (fun c => c != '"') = w.dropWhile (fun c => c != '"') := by
  induction v with
  | nil => rfl
  | cons c cs ih =>
    rw [qfree, List.all_cons, Bool.and_eq_true] at h
    have ih2 := ih (by simpa [qfree] using h.2)
    simp [List.dropWhile_cons, h.1, ih2]

theorem matchAttrVal_exact (k v r : List Char) (hq : qfree v = true) :
    matchAttrVal k (k ++ (v ++ '"' :: r)) = some (v, r) := by
  have h1 : (v ++ '"' :: r).dropWhile (fun c => c != '"') = '"' :: r := by
    rw [dropWhile_qfree v _ hq]
    simp [List.dropWhile_cons]
  have h2 : (v ++ '"' :: r).takeWhile (fun c => c != '"') = v := by
    rw [takeWhile_qfree v _ hq]
    simp [List.takeWhile_cons]
  simp [matchAttrVal, dropStr_app, h1, h2]

theorem dropSpaces_cons_space (r : List Char) :
    dropSpaces (' ' :: r) = dropSpaces r := by
  simp [dropSpaces, List.dropWhile_cons, isSpc]

theorem dropSpaces_cons_nospc (c : Char) (r : List Char) (h : isSpc c = false) :
    dropSpaces (c :: r) = c :: r := by
  simp [dropSpaces, List.dropWhile_cons, h]

theorem finishG_label (a b c d : Option (List Char)) (label : List Char)
    (h : label ≠ []) :
    finishG a b c d (',' :: label) = some ⟨a, b, c, d, label⟩ := by
  cases label with
  | nil => exact absurd rfl h
  | cons x xs => simp [finishG]

theorem dropSpaces_comma (X : List Char) : dropSpaces (',' :: X) = ',' :: X := rfl

theorem dropSpaces_sp_keyName (X : List Char) :
    dropSpaces (' ' :: (keyName ++ X)) = keyName ++ X := rfl

theorem dropSpaces_sp_keyLogo (X : List Char) :
    dropSpaces (' ' :: (keyLogo ++ X)) = keyLogo ++ X := rfl

theorem dropSpaces_sp_keyTitle (X : List Char) :
    dropSpaces (' ' :: (keyTitle ++ X)) = keyTitle ++ X := rfl

theorem goTitle_exact (a b c : Option (List Char)) (g label : List Char)
    (hqg : qfree g = true) (hl : label ≠ []) :
    goTitle a b c (keyTitle ++ (g ++ '"' :: ',' :: label)) =
      some ⟨a, b, c, some g, label⟩ := by
  have h1 : (match matchAttrVal keyTitle (keyTitle ++ (g ++ '"' :: ',' :: label)) with
             | some (v, r) => finishG a b c (some v) (dropSpaces r)
             | none => none) =
      finishG a b c (some g) (dropSpaces (',' :: label)) := by
    rw [matchAttrVal_exact keyTitle g (',' :: label) hqg]
  unfold goTitle
  rw [h1, dropSpaces_comma, finishG_label a b c (some g) label hl]
  rfl

theorem goLogo_exact (a b : Option (List Char)) (l g label : List Char)
    (hql : qfree l = true) (hqg : qfree g = true) (hl : label ≠ []) :
    goLogo a b (keyLogo ++ (l ++ '"' :: ' ' :: (keyTitle ++ (g ++ '"' :: ',' :: label)))) =
      some ⟨a, b, some l, some g, label⟩ := by
  have h1 : (match matchAttrVal keyLogo
               (keyLogo ++ (l ++ '"' :: ' ' :: (keyTitle ++ (g ++ '"' :: ',' :: label)))) with
             | some (v, r) => goTitle a b (some v) (dropSpaces r)
             | none => none) =
      goTitle a b (some l) (dropSpaces (' ' :: (keyTitle ++ (g ++ '"' :: ',' :: label)))) := by
    rw [matchAttrVal_exact keyLogo l (' ' :: (keyTitle ++ (g ++ '"' :: ',' :: label))) hql]
  unfold goLogo
  rw [h1, dropSpaces_sp_keyTitle, goTitle_exact a b (some l) g label hqg hl]
  rfl

theorem goName_exact (a : Option (List Char)) (nh l g label : List Char)
    (hqh : qfree nh = true) (hql : qfree l = true) (hqg : qfree g = true)
    (hl : label ≠ []) :
    goName a (keyName ++ (nh ++ '"' :: ' ' ::
        (keyLogo ++ (l ++ '"' :: ' ' :: (keyTitle ++ (g ++ '"' :: ',' :: label)))))) =
      some ⟨a, some nh, some l, some g, label⟩ := by
  have h1 : (match matchAttrVal keyName
               (keyName ++ (nh ++ '"' :: ' ' ::
                 (keyLogo ++ (l ++ '"' :: ' ' :: (keyTitle ++ (g ++ '"' :: ',' :: label)))))) with
             | some (v, r) => goLogo a (some v) (dropSpaces r)
             | none => none) =
      goLogo a (some nh)
        (dropSpaces (' ' :: (keyLogo ++ (l ++ '"' :: ' ' ::
          (keyTitle ++ (g ++ '"' :: ',' :: label)))))) := by
    rw [matchAttrVal_exact keyName nh
      (' ' :: (keyLogo ++ (l ++ '"' :: ' ' :: (keyTitle ++ (g ++ '"' :: ',' :: label))))) hqh]
  unfold goName
  rw [h1, dropSpaces_sp_keyLogo, goLogo_exact a (some nh) l g label hql hqg hl]
  rfl

theorem goId_exact (i nh l g label : List Char)
    (hqi : qfree i = true) (hqh : qfree nh = true) (hql : qfree l = true)
    (hqg : qfree g = true) (hl : label ≠ []) :
    goId (keyId ++ (i ++ '"' :: ' ' :: (keyName ++ (nh ++ '"' :: ' ' ::
        (keyLogo ++ (l ++ '"' :: ' ' :: (keyTitle ++ (g ++ '"' :: ',' :: label)))))))) =
      some ⟨some i, some nh, some l, some g, label⟩ := by
  have h1 : (match matchAttrVal keyId
               (keyId ++ (i ++ '"' :: ' ' :: (keyName ++ (nh ++ '"' :: ' ' ::
                 (keyLogo ++ (l ++ '"' :: ' ' ::
                   (keyTitle ++ (g ++ '"' :: ',' :: label)))))))) with
             | some (v, r) => goName (some v) (dropSpaces r)
             | none => none) =
      goName (some i)
        (dropSpaces (' ' :: (keyName ++ (nh ++ '"' :: ' ' ::
          (keyLogo ++ (l ++ '"' :: ' ' :: (keyTitle ++ (g ++ '"' :: ',' :: label)))))))) := by
    rw [matchAttrVal_exact keyId i
      (' ' :: (keyName ++ (nh ++ '"' :: ' ' ::
        (keyLogo ++ (l ++ '"' :: ' ' :: (keyTitle ++ (g ++ '"' :: ',' :: label))))))) hqi]
  unfold goId
  rw [h1, dropSpaces_sp_keyName, goName_exact (some i) nh l g label hqh hql hqg hl]
  rfl

theorem extinfGroups_meta_step (c : LiveChannel) :
    extinfGroups (metaChars c) =
      goId (keyId ++ (c.tvgId.data ++ '"' :: ' ' :: (keyName ++ (c.tvgName.data ++ '"' :: ' ' ::
        (keyLogo ++ (c.tvgLogo.data ++ '"' :: ' ' ::
          (keyTitle ++ (c.groupTitle.data ++ '"' :: ',' :: labelChars c)))))))) := rfl

theorem labelChars_ne_nil (c : LiveChannel) : labelChars c ≠ [] := by
  unfold labelChars
  cases hn : c.name.data <;> simp

theorem extinfGroups_meta (c : LiveChannel)
    (hqi : qfree c.tvgId.data = true) (hqh : qfree c.tvgName.data = true)
    (hql : qfree c.tvgLogo.data = true) (hqg : qfree c.groupTitle.data = true) :
    extinfGroups (metaChars c) =
      some ⟨some c.tvgId.data, some c.tvgName.data, some c.tvgLogo.data,
            some c.groupTitle.data, labelChars c⟩ := by
  rw [extinfGroups_meta_step c,
    goId_exact c.tvgId.data c.tvgName.data c.tvgLogo.data c.groupTitle.data
      (labelChars c) hqi hqh hql hqg (labelChars_ne_nil c)]

theorem dw_length_le (p : Char → Bool) (l : List Char) :
    (l.dropWhile p).length ≤ l.length := by
  induction l with
  | nil => simp
  | cons x t ih =>
    rw [List.dropWhile_cons]
    split
    · exact le_trans ih (by simp)
    · simp

theorem dropWhile_eq_self_of_length (cs : List Char)
    (h : (cs.dropWhile isSpc).length = cs.length) : cs.dropWhile isSpc = cs := by
  cases cs with
  | nil => rfl
  | cons x t =>
    by_cases hx : isSpc x = true
    · exfalso
      rw [List.dropWhile_cons, if_pos hx] at h
      have := dw_length_le isSpc t
      simp at h
      omega
    · rw [List.dropWhile_cons, if_neg hx]

theorem pstrip_length_le (cs : List Char) : (pstrip cs).length ≤ cs.length := by
  unfold pstrip
  calc ((cs.dropWhile isSpc).reverse.dropWhile isSpc).reverse.length
      = ((cs.dropWhile isSpc).reverse.dropWhile isSpc).length := List.length_reverse _
    _ ≤ (cs.dropWhile isSpc).reverse.length := dw_length_le _ _
    _ = (cs.dropWhile isSpc).length := List.length_reverse _
    _ ≤ cs.length := dw_length_le _ _

theorem dropWhile_self_of_pstrip_self (cs : List Char)
    (h : pstrip cs = cs) : cs.dropWhile isSpc = cs := by
  apply dropWhile_eq_self_of_length
  have h1 : (pstrip cs).length ≤ ((cs.dropWhile isSpc).reverse.dropWhile isSpc).reverse.length := le_of_eq rfl
  have h2 : ((cs.dropWhile isSpc).reverse.dropWhile isSpc).reverse.length ≤ (cs.dropWhile isSpc).length := by
    rw [List.length_reverse]
    calc ((cs.dropWhile isSpc).reverse.dropWhile isSpc).length
        ≤ (cs.dropWhile isSpc).reverse.length := dw_length_le _ _
      _ = (cs.dropWhile isSpc).length := List.length_reverse _
  have h3 : (cs.dropWhile isSpc).length ≤ cs.length := dw_length_le _ _
  have h4 : (pstrip cs).length = cs.length := by rw [h]
  omega

theorem dropWhile_app_self (n rest : List Char) (hn : n ≠ [])
    (hfix : n.dropWhile isSpc = n) :
    (n ++ rest).dropWhile isSpc = n ++ rest := by
  cases n with
  | nil => exact absurd rfl hn
  | cons x t =>
    have hx : isSpc x = false := by
      by_cases hx : isSpc x = true
      · exfalso
        rw [List.dropWhile_cons, if_pos hx] at hfix
        have := dw_length_le isSpc t
        have hlen : (t.dropWhile isSpc).length = t.length + 1 := by
          rw [hfix]; simp
        omega
      · simpa using hx
    simp [List.dropWhile_cons, hx]

theorem pstrip_concat (front : List Char) (x : Char) (hx : isSpc x = false)
    (hfront : (front ++ [x]).dropWhile isSpc = front ++ [x]) :
    pstrip (front ++ [x]) = front ++ [x] := by
  unfold pstrip
  rw [hfront, List.reverse_append]
  simp only [List.reverse_cons, List.reverse_nil, List.nil_append, List.cons_append]
  rw [List.dropWhile_cons, if_neg (by simp [hx])]
  simp

theorem labelChars_concat (c : LiveChannel) :
    labelChars c = (c.name.data ++ ' ' :: '(' :: c.status.data) ++ [')'] := by
  simp [labelChars, List.append_assoc]

theorem metaChars_concat (c : LiveChannel) :
    metaChars c =
      ("#EXTINF:".data ++ '-' :: '1' :: ' ' ::
        (keyId ++ (c.tvgId.data ++ '"' :: ' ' ::
          (keyName ++ (c.tvgName.data ++ '"' :: ' ' ::
            (keyLogo ++ (c.tvgLogo.data ++ '"' :: ' ' ::
              (keyTitle ++ (c.groupTitle.data ++ '"' :: ',' ::
                (c.name.data ++ ' ' :: '(' :: c.status.data)))))))))) ++ [')'] := by
  simp [metaChars, labelChars, List.append_assoc]

theorem pstrip_metaChars (c : LiveChannel) : pstrip (metaChars c) = metaChars c := by
  rw [metaChars_concat]
  apply pstrip_concat _ _ (by decide)
  rw [← metaChars_concat]
  rfl

theorem pstrip_labelChars (c : LiveChannel) (hn : c.name.data ≠ [])
    (hfix : pstrip c.name.data = c.name.data) :
    pstrip (labelChars c) = labelChars c := by
  rw [labelChars_concat]
  apply pstrip_concat _ _ (by decide)
  rw [← labelChars_concat]
  unfold labelChars
  exact dropWhile_app_self _ _ hn (dropWhile_self_of_pstrip_self _ hfix)

theorem slGo_cons_other (c : Char) (w acc : List Char)
    (h1 : isBreak c = false) :
    slGo (c :: w) acc = slGo w (c :: acc) := by
  have h2 : ¬c = '\r' := by
    intro hx
    subst hx
    exact absurd h1 (by decide)
  cases w with
  | nil => simp [slGo, h1]
  | cons d t => simp [slGo, h1, h2]

theorem slGo_newline (w acc : List Char) :
    slGo ('\n' :: w) acc = acc.reverse :: slGo w [] := rfl

theorem slGo_app (a rest acc : List Char) (h : noNL a = true) :
    slGo (a ++ '\n' :: rest) acc = (acc.reverse ++ a) :: slGo rest [] := by
  induction a generalizing acc with
  | nil => simp [slGo_newline]
  | cons c t ih =>
    rw [noNL, List.all_cons, Bool.and_eq_true, Bool.not_eq_true'] at h
    rw [List.cons_append, slGo_cons_other c _ acc h.1,
      ih (c :: acc) (by simpa [noNL] using h.2)]
    simp

theorem genBody_data (c : LiveChannel) (cs : List LiveChannel) :
    (genBody (c :: cs)).data =
      metaChars c ++ '\n' :: (c.url.data ++ '\n' :: (genBody cs).data) := by
  simp only [genBody, sdata_app, metaChars, labelChars, keyId, keyName, keyLogo,
    keyTitle, List.append_assoc, List.cons_append]
  rfl

theorem saneLive_split (c : LiveChannel) (h : saneLive c = true) :
    qfree c.tvgId.data = true ∧ qfree c.tvgName.data = true ∧
    qfree c.tvgLogo.data = true ∧ qfree c.groupTitle.data = true ∧
    noNL c.tvgId.data = true ∧ noNL c.tvgName.data = true ∧
    noNL c.tvgLogo.data = true ∧ noNL c.groupTitle.data = true ∧
    noNL c.name.data = true ∧ noNL c.status.data = true ∧ noNL c.url.data = true ∧
    c.groupTitle.data ≠ [] ∧
    pstrip c.name.data = c.name.data ∧ c.name.data ≠ [] ∧
    pstrip c.url.data = c.url.data ∧ c.url.data ≠ [] ∧
    hasPref ['#'] c.url.data = false := by
  simp only [saneLive, Bool.and_eq_true, Bool.not_eq_true', List.isEmpty_eq_false,
    beq_iff_eq] at h
  tauto

theorem noNL_app (a b : List Char) : noNL (a ++ b) = (noNL a && noNL b) := by
  simp [noNL, List.all_append]

theorem noNL_cons (c : Char) (t : List Char) :
    noNL (c :: t) = (!isBreak c && noNL t) := by
  simp [noNL]

theorem noNL_metaChars (c : LiveChannel) (h : saneLive c = true) :
    noNL (metaChars c) = true := by
  obtain ⟨-, -, -, -, h5, h6, h7, h8, h9, h10, -, -, -, -, -, -, -⟩ :=
    saneLive_split c h
  simp only [metaChars, labelChars, noNL_app, noNL_cons, Bool.and_eq_true]
  simp_all
  decide

theorem slGo_genBody (cs : List LiveChannel) (h : ∀ c ∈ cs, saneLive c = true) :
    slGo (genBody cs).data [] = genLines cs := by
  induction cs with
  | nil => rfl
  | cons c t ih =>
    have hc := h c (List.mem_cons_self _ _)
    obtain ⟨-, -, -, -, -, -, -, -, -, -, h11, -, -, -, -, -, -⟩ :=
      saneLive_split c hc
    rw [genBody_data, slGo_app _ _ _ (noNL_metaChars c hc), slGo_app _ _ _ h11,
      ih (fun d hd => h d (List.mem_cons_of_mem _ hd))]
    simp [genLines]

theorem label_string_data (c : LiveChannel) :
    (c.name ++ " (" ++ c.status ++ ")").data = labelChars c := by
  simp [sdata_app, labelChars, List.append_assoc]

theorem parseLoop_genLines (cs : List LiveChannel)
    (h : ∀ c ∈ cs, saneLive c = true) :
    parseLoop (genLines cs) none = cs.map reparsedChannel := by
  induction cs with
  | nil => rfl
  | cons c t ih =>
    have hc := h c (List.mem_cons_self _ _)
    obtain ⟨h1, h2, h3, h4, -, -, -, -, -, -, -, h12, h13, h14, h15, h16, h17⟩ :=
      saneLive_split c hc
    have hmetapref : hasPref extinfLit (pstrip (metaChars c)) = true := by
      rw [pstrip_metaChars]; rfl
    have hmetag : extinfGroups (pstrip (metaChars c)) =
        some ⟨some c.tvgId.data, some c.tvgName.data, some c.tvgLogo.data,
              some c.groupTitle.data, labelChars c⟩ := by
      rw [pstrip_metaChars]; exact extinfGroups_meta c h1 h2 h3 h4
    have hupref : hasPref extinfLit (pstrip c.url.data) = false := by
      rw [h15]
      cases hx : hasPref extinfLit c.url.data with
      | false => rfl
      | true => rw [hasPref_hash_of_extinf _ hx] at h17; cases h17
    have hne : (pstrip c.url.data).isEmpty = false := by
      rw [h15]
      cases hu : c.url.data with
      | nil => exact absurd hu h16
      | cons a b => rfl
    have hhash : hasPref ['#'] (pstrip c.url.data) = false := by
      rw [h15]; exact h17
    rw [show genLines (c :: t) = metaChars c :: c.url.data :: genLines t from rfl,
      parseLoop_meta _ _ none _ hmetapref hmetag,
      parseLoop_urlline _ _ _ hupref hne hhash,
      ih (fun d hd => h d (List.mem_cons_of_mem _ hd))]
    rw [List.map_cons]
    congr 1
    unfold extinfToChannel reparsedChannel
    simp only [Option.getD_some, h15, if_neg h12]
    rw [pstrip_labelChars c h14 h13, ← label_string_data]

/-- C8 counterexample: rendering one committed entry and reparsing it
does not reproduce `displayName` verbatim — the serializer folds the
live status into the label, so the name comes back as `"A (Live)"`. -/
theorem render_parse_name_mismatch :
    parse_m3u (generate_m3u [demoLive]) =
      [{ tvgId := "i1", tvgName := "h1", tvgLogo := "http://logo.png"
         groupTitle := "News", name := "A (Live)", url := "http://u" }] ∧
    demoLive.name = "A" ∧ ("A (Live)" : String) ≠ "A" :=
  ⟨by decide, rfl, by decide⟩

/-- C8 amended: for every committed list whose entries render cleanly
(no quotes in attribute values, no embedded line breaks, nonempty group
title, stripped nonempty name and URL, URL not starting with `#`),
reparsing the rendered feed reproduces `id`, `logoURL`, `category`
(group title) and `streamURL` of every entry verbatim, while
`displayName` is reproduced as `"<displayName> (<liveStatus>)"`. -/
theorem render_parse_roundtrip_fields (cs : List LiveChannel)
    (h : ∀ c ∈ cs, saneLive c = true) :
    parse_m3u (generate_m3u cs) = cs.map reparsedChannel := by
  unfold parse_m3u generate_m3u splitlines parseLines
  rw [sdata_app,
    show ("#EXTM3U\n".data ++ (genBody cs).data) =
      "#EXTM3U".data ++ '\n' :: (genBody cs).data from rfl,
    slGo_app _ _ _ (by decide), slGo_genBody cs h]
  simp only [List.reverse_nil, List.nil_append]
  rw [parseLoop_none_other _ _ (by decide)]
  exact parseLoop_genLines cs h

/-- Witness for C8 (amended) on one concrete committed entry. -/
theorem render_parse_roundtrip_fields_w :
    parse_m3u (generate_m3u [demoLive]) = [demoLive].map reparsedChannel := by
  apply render_parse_roundtrip_fields
  intro c hc
  rw [List.mem_singleton.mp hc]
  decide
